import Mathlib

/-
Verification development for the anonymous peer-support chat-matching bot
(`bot.py`, `database.py`, `config.py`).

The SQLAlchemy-backed persistent state is shallowly embedded as a `DB`
record of lists of rows; each handler of `bot.py` becomes a pure Lean
function from a `DB` (plus the inbound event's data and the current
instant, modelled as a `Nat`) to an updated `DB` together with the list of
outbound platform calls it performs.  The profanity predicate
(`profanity_filter.check_profanity`, vendored by reference and not part of
the visible source) is passed as an arbitrary boolean-valued function
parameter, matching its specified black-box contract.
-/

namespace Zabota

/-- Model of `config.py`: minimum age bound (`MIN_AGE = 14`). -/
def MIN_AGE : Int := 14

/-- Model of `config.py`: maximum age bound (`MAX_AGE = 18`). -/
def MAX_AGE : Int := 18

/-- Row of the `users` table (`database.py`, class `User`). Timestamps are
modelled as natural numbers. -/
structure User where
  id : Nat
  telegram_id : Nat
  age : Int
  is_banned : Bool
  registered_at : Nat
  current_chat_id : Option Nat
  current_role : Option String
  current_problem : Option String
deriving DecidableEq, Repr

/-- Row of the `chats` table (`database.py`, class `Chat`). -/
structure Chat where
  id : Nat
  user1_id : Nat
  user2_id : Nat
  role1 : String
  role2 : String
  problem_type : String
  created_at : Nat
  is_active : Bool
  ended_at : Option Nat
deriving DecidableEq, Repr

/-- Row of the `messages` table (`database.py`, class `Message`). -/
structure Message where
  id : Nat
  chat_id : Nat
  user_id : Nat
  text : String
  sent_at : Nat
deriving DecidableEq, Repr

/-- Row of the `chat_history` table (`database.py`, class `ChatHistory`). -/
structure ChatHistory where
  id : Nat
  user_id : Nat
  chat_id : Nat
  viewed_at : Nat
deriving DecidableEq, Repr

/-- Row of the `queue_entries` table (`database.py`, class `QueueEntry`). -/
structure QueueEntry where
  id : Nat
  user_id : Nat
  role : String
  problem_type : String
  age : Int
  joined_at : Nat
deriving DecidableEq, Repr

/-- One outbound platform call: `update.message.reply_text` /
`query.edit_message_text` to the interacting user is `reply`, and
`context.bot.send_message(chat_id=t, text=s)` is `send t s`. -/
inductive Out where
  | reply (text : String)
  | send (telegram_id : Nat) (text : String)
deriving DecidableEq, Repr

/-- The whole persistent store (`bot_database.db`): one list per table plus
the autoincrement counters supplying fresh primary keys. -/
structure DB where
  users : List User
  chats : List Chat
  messages : List Message
  chat_history : List ChatHistory
  queue : List QueueEntry
  next_chat_id : Nat
  next_message_id : Nat
  next_history_id : Nat
  next_queue_id : Nat
deriving DecidableEq, Repr

/-- Generic `UPDATE ... WHERE key = k` over a list of rows: apply `f` to
every row whose `key` equals `k` (unique keys make this the single-row ORM
mutation of the source). -/
def updAt {α : Type} (key : α → Nat) (k : Nat) (f : α → α) (l : List α) : List α :=
  l.map (fun a => if key a = k then f a else a)

/-- Model of `select(User).where(User.telegram_id == tg)` + `scalar_one_or_none`. -/
def findUserByTg (db : DB) (tg : Nat) : Option User :=
  db.users.find? (fun u => u.telegram_id == tg)

/-- Model of `select(User).where(User.id == i)` + `scalar_one_or_none`. -/
def findUserById (db : DB) (i : Nat) : Option User :=
  db.users.find? (fun u => u.id == i)

/-- Model of `select(Chat).where(Chat.id == i)` + `scalar_one_or_none`. -/
def findChat (db : DB) (i : Nat) : Option Chat :=
  db.chats.find? (fun c => c.id == i)

/-- Model of `get_age_range` (bot.py lines 40-55): the inclusive band of
acceptable partner ages for a user of the given age. -/
def get_age_range (user_age : Int) : Int × Int :=
  if user_age = 14 then (14, 16)
  else if user_age = 15 then (14, 17)
  else if user_age = 16 then (14, 18)
  else if user_age = 17 then (15, 18)
  else if user_age = 18 then (16, 18)
  else (MIN_AGE, MAX_AGE)

/-- Stable insertion into a list sorted by `key` ascending: the new element
goes after every element whose key is `≤` its own. -/
def insertByKey {α : Type} (key : α → Nat) (x : α) : List α → List α
  | [] => [x]
  | y :: ys => if key y ≤ key x then y :: insertByKey key x ys else x :: y :: ys

/-- Stable sort by `key` ascending; models SQL `ORDER BY key` (ties keep
the underlying row order). -/
def sortByKey {α : Type} (key : α → Nat) : List α → List α
  | [] => []
  | x :: xs => insertByKey key x (sortByKey key xs)

/-- Text of bot.py line 359 (unregistered sender). -/
def start_prompt_text : String := "Пожалуйста, начните с команды /start"

/-- Text of bot.py line 363 (banned sender refusal). -/
def banned_refusal_text : String := "❌ Вы заблокированы и не можете использовать бота."

/-- Text of bot.py lines 372-375 (permanent-ban notice after profanity). -/
def profanity_ban_text : String :=
  "❌ Вы использовали ненормативную лексику. Вы получили пожизненный запрет на использование бота."

/-- Text of bot.py line 411 (partner row unresolvable). -/
def partner_not_found_text : String := "❌ Собеседник не найден."

/-- Text of bot.py line 413 (chat missing or inactive). -/
def chat_not_active_text : String := "❌ Чат не активен."

/-- Text of bot.py lines 415-417 (no current chat when relaying). -/
def no_chat_hint_text : String :=
  "У вас нет активного чата. Используйте /start для поиска собеседника."

/-- Text of bot.py line 530 (partner notification on chat end). -/
def partner_ended_text : String := "❌ Собеседник завершил чат."

/-- Text of bot.py line 612 (chat ended confirmation). -/
def chat_ended_text : String := "✅ Чат завершен."

/-- Text of bot.py line 614 (end_chat: chat row not found). -/
def chat_not_found_text : String := "❌ Чат не найден."

/-- Text of bot.py line 616 (end_chat: no current chat). -/
def no_active_chat_text : String := "❌ У вас нет активного чата."

/-- Text of bot.py lines 468-471 (searching notice). -/
def searching_text : String :=
  "🔍 Ищем подходящего собеседника...\nПожалуйста, подождите."

/-- Text of bot.py lines 499-503 (queued notice when no match found). -/
def queued_text : String :=
  "⏳ Собеседник пока не найден. Вы добавлены в очередь ожидания.\nМы уведомим вас, когда найдем подходящего собеседника."

/-- Text of bot.py lines 483-489 / 491-497 (match-found notification; reveals
the partner's age and one's own age as seen by the partner). -/
def match_found_text (partner_age own_age : Int) : String :=
  "✅ Собеседник найден!\n\nВозраст собеседника: " ++ toString partner_age ++
  " лет\nВаш возраст виден собеседнику: " ++ toString own_age ++ " лет\n\nНачните общение!"

/-- Text of bot.py line 690 (transcript requested but chat has no messages). -/
def no_messages_text : String := "📜 В этом чате нет сообщений."

/-- Header of bot.py line 694 (transcript). -/
def transcript_header : String := "📜 История чата:\n\n"

/-- Model of `add_to_queue` (bot.py lines 231-257): upsert the requesting
user's `QueueEntry` with the given role and problem, the user's current
age, and the joined timestamp reset to `now`. -/
def add_to_queue (db : DB) (user : User) (role problem : String) (now : Nat) : DB :=
  match db.queue.find? (fun q => q.user_id == user.id) with
  | some _ =>
      { db with queue := db.queue.map (fun q =>
          if q.user_id = user.id then
            { q with role := role, problem_type := problem, age := user.age, joined_at := now }
          else q) }
  | none =>
      { db with
        queue := db.queue ++
          [{ id := db.next_queue_id, user_id := user.id, role := role,
             problem_type := problem, age := user.age, joined_at := now }],
        next_queue_id := db.next_queue_id + 1 }

/-- Model of `remove_from_queue` (bot.py lines 260-264): delete every
`QueueEntry` of the given user id (at most one exists under the table's
unique constraint); idempotent on absence. -/
def remove_from_queue (db : DB) (user_id : Nat) : DB :=
  { db with queue := db.queue.filter (fun q => !(q.user_id == user_id)) }

/-- Model of the opposite-role computation appearing at bot.py lines 270
and 306. -/
def opposite_of (role : String) : String :=
  if role = "support" then "receive_support" else "support"

/-- Model of the filtered join of `find_match` (bot.py lines 277-289):
queue entries joined to their user rows, keeping those whose entrant is a
different user with the opposite role and same problem, whose age lies in
the requester's band, who is not banned, and who has no current chat. -/
def matchCandidates (db : DB) (user : User) (opposite_role problem : String)
    (min_age max_age : Int) : List (QueueEntry × User) :=
  db.queue.filterMap (fun q =>
    match findUserById db q.user_id with
    | none => none
    | some u =>
        if q.user_id ≠ user.id ∧ q.role = opposite_role ∧ q.problem_type = problem ∧
           min_age ≤ u.age ∧ u.age ≤ max_age ∧ u.is_banned = false ∧
           u.current_chat_id = none
        then some (q, u) else none)

/-- Model of `find_match` (bot.py lines 267-301): take the first candidate
in joined-timestamp order, then apply the reciprocity check (the
requester's age must lie in the candidate's own band). -/
def find_match (db : DB) (user : User) (role problem : String) : Option User :=
  match sortByKey (fun qu => qu.1.joined_at)
      (matchCandidates db user (opposite_of role) problem
        (get_age_range user.age).1 (get_age_range user.age).2) with
  | [] => none
  | (_, matched_user) :: _ =>
      if (get_age_range matched_user.age).1 ≤ user.age ∧
         user.age ≤ (get_age_range matched_user.age).2
      then some matched_user else none

/-- The claim's (and §4.4's) admission condition for a queue entry, stated
in the spec's own words: the entrant is a different user with the opposite
role and the same topic, the entrant's age lies inside the requester's
band, and the entrant is neither banned nor currently in a chat. -/
def eligibleEntry (db : DB) (user : User) (role problem : String)
    (q : QueueEntry) (u : User) : Prop :=
  findUserById db q.user_id = some u ∧ q.user_id ≠ user.id ∧
  q.role = opposite_of role ∧ q.problem_type = problem ∧
  (get_age_range user.age).1 ≤ u.age ∧ u.age ≤ (get_age_range user.age).2 ∧
  u.is_banned = false ∧ u.current_chat_id = none

/-- Set a user row's `current_chat_id` (the ORM attribute assignments at
bot.py lines 321-322, 527, 533). -/
def setCurrentChat (db : DB) (uid : Nat) (v : Option Nat) : DB :=
  { db with users := updAt User.id uid (fun u => { u with current_chat_id := v }) db.users }

/-- Model of `create_chat` (bot.py lines 304-324): insert a new active
`Chat` row for the two users and point both users' `current_chat_id` at
it; returns the updated store and the new row. -/
def create_chat (db : DB) (user1 user2 : User) (role1 problem : String) (now : Nat) :
    DB × Chat :=
  let chat : Chat :=
    { id := db.next_chat_id, user1_id := user1.id, user2_id := user2.id,
      role1 := role1, role2 := opposite_of role1, problem_type := problem,
      created_at := now, is_active := true, ended_at := none }
  let db1 := { db with chats := db.chats ++ [chat], next_chat_id := db.next_chat_id + 1 }
  let db2 := setCurrentChat db1 user1.id (some chat.id)
  let db3 := setCurrentChat db2 user2.id (some chat.id)
  (db3, chat)

/-- Model of the partner determination at bot.py lines 386-389 (and
repeated at 518-521, 646-649). -/
def partner_id_of (chat : Chat) (user : User) : Nat :=
  if chat.user1_id = user.id then chat.user2_id else chat.user1_id

/-- Model of `handle_message` (bot.py lines 348-417): moderation first
(banned refusal, then profanity ban), then relay of the text to the
partner of the sender's active chat. `prof` is the vendored
`check_profanity` predicate. -/
def handle_message (prof : String → Bool) (db : DB) (tg : Nat) (message_text : String)
    (now : Nat) : DB × List Out :=
  match findUserByTg db tg with
  | none => (db, [Out.reply start_prompt_text])
  | some user =>
    if user.is_banned then
      (db, [Out.reply banned_refusal_text])
    else if prof message_text then
      ({ db with users := updAt User.id user.id (fun u => { u with is_banned := true }) db.users },
       [Out.reply profanity_ban_text])
    else
      match user.current_chat_id with
      | some chat_id =>
        (match findChat db chat_id with
         | some chat =>
           if chat.is_active then
             match findUserById db (partner_id_of chat user) with
             | some partner =>
                 ({ db with
                    messages := db.messages ++
                      [{ id := db.next_message_id, chat_id := chat.id, user_id := user.id,
                         text := message_text, sent_at := now }],
                    next_message_id := db.next_message_id + 1 },
                  [Out.send partner.telegram_id message_text])
             | none => (db, [Out.reply partner_not_found_text])
           else (db, [Out.reply chat_not_active_text])
         | none => (db, [Out.reply chat_not_active_text]))
      | none => (db, [Out.reply no_chat_hint_text])

/-- Number of ChatHistory rows of `uid` for chat `cid`
(`select(ChatHistory).where(user_id == uid, chat_id == cid)` result size). -/
def pairCount (hist : List ChatHistory) (uid cid : Nat) : Nat :=
  (hist.filter (fun h => h.user_id == uid && h.chat_id == cid)).length

/-- All ChatHistory rows of a user
(`select(ChatHistory).where(ChatHistory.user_id == uid)`). -/
def userHistory (hist : List ChatHistory) (uid : Nat) : List ChatHistory :=
  hist.filter (fun h => h.user_id == uid)

/-- The eviction step of the history-recording block (bot.py lines
554-562 / 590-598): select the user's history row with the oldest viewed
timestamp (`order_by(viewed_at).limit(1)`) and delete it
(`session.delete(old_entry)`). -/
def evict_oldest (hist : List ChatHistory) (uid : Nat) : List ChatHistory :=
  match sortByKey (fun h => h.viewed_at) (userHistory hist uid) with
  | [] => hist
  | old :: _ => hist.filter (fun h => !(h.id == old.id))

/-- Model of the per-participant history-recording block of the `end_chat`
branch (bot.py lines 541-572 for the requesting user, repeated at 576-608
for the partner): if a (user, chat) row exists, refresh its viewed
timestamp; otherwise, when the user already has 3 or more rows, evict the
oldest-viewed row first and insert a fresh row. -/
def record_history (db : DB) (uid cid now : Nat) : DB :=
  match db.chat_history.find? (fun h => h.user_id == uid && h.chat_id == cid) with
  | some _ =>
      { db with chat_history := db.chat_history.map (fun h =>
          if h.user_id = uid ∧ h.chat_id = cid then { h with viewed_at := now } else h) }
  | none =>
      let hist1 :=
        if 3 ≤ (userHistory db.chat_history uid).length then
          evict_oldest db.chat_history uid
        else db.chat_history
      { db with
        chat_history := hist1 ++ [{ id := db.next_history_id, user_id := uid,
                                    chat_id := cid, viewed_at := now }],
        next_history_id := db.next_history_id + 1 }

/-- Model of the `end_chat` branch of `handle_callback` (bot.py lines
508-616): mark the referenced chat inactive with an ended timestamp,
notify and unlink the partner (when the partner row resolves), unlink the
requester, and record a history entry for both participants. -/
def handle_end_chat (db : DB) (user : User) (now : Nat) : DB × List Out :=
  match user.current_chat_id with
  | none => (db, [Out.reply no_active_chat_text])
  | some cid =>
    match findChat db cid with
    | none => (db, [Out.reply chat_not_found_text])
    | some chat =>
      let db1 := { db with chats := updAt Chat.id chat.id (fun c => { c with is_active := false, ended_at := some now }) db.chats }
      match findUserById db1 (partner_id_of chat user) with
      | some partner =>
          let db2 := setCurrentChat db1 partner.id none
          let db3 := setCurrentChat db2 user.id none
          let db4 := record_history db3 user.id chat.id now
          let db5 := record_history db4 partner.id chat.id now
          (db5, [Out.send partner.telegram_id partner_ended_text, Out.reply chat_ended_text])
      | none =>
          let db3 := setCurrentChat db1 user.id none
          let db4 := record_history db3 user.id chat.id now
          (db4, [Out.reply chat_ended_text])

/-- Model of one transcript line of `view_chat_history` (bot.py lines
696-700): prefix "Вы" when the author is the viewer, otherwise
"Собеседник", followed by the text and the sent timestamp (time rendering
abstracted to the numeric instant). -/
def render_message (viewer : User) (m : Message) : String :=
  (if m.user_id = viewer.id then "Вы" else "Собеседник") ++ ": " ++ m.text ++
  "\n   (" ++ toString m.sent_at ++ ")\n\n"

/-- Transcript accumulation of bot.py lines 694-700. -/
def build_transcript (viewer : User) (msgs : List Message) : String :=
  msgs.foldl (fun acc m => acc ++ render_message viewer m) transcript_header

/-- Model of `view_chat_history` (bot.py lines 672-705): load the chat by
the id taken from the button payload, load its messages ordered by sent
timestamp, and render the transcript for the requesting user; no check
relates the requesting user to the chat's participants or to any
ChatHistory row. -/
def view_chat_history (db : DB) (user : User) (chat_id : Nat) : List Out :=
  match findChat db chat_id with
  | none => [Out.reply chat_not_found_text]
  | some _ =>
    match sortByKey Message.sent_at (db.messages.filter (fun m => m.chat_id == chat_id)) with
    | [] => [Out.reply no_messages_text]
    | m :: ms => [Out.reply (build_transcript user (m :: ms))]

/-- State reached by the `menu_problem_` branch of `handle_callback`
(bot.py lines 462-466) just before its match attempt: role/problem
persisted on the user row, then the user admitted to the queue. Returns
the updated store and the updated user row. -/
def menu_problem_pre (db : DB) (user : User) (role problem : String) (now : Nat) :
    DB × User :=
  let user1 := { user with current_role := some role, current_problem := some problem }
  let db1 := { db with users := updAt User.id user.id (fun _ => user1) db.users }
  (add_to_queue db1 user1 role problem now, user1)

/-- Model of the `menu_problem_` branch of `handle_callback` (bot.py lines
457-503): persist role/problem, admit to the queue, attempt a match; on
success create the chat, dequeue both sides and notify both; otherwise
notify the requester that they are queued. No check of the requester's
existing `current_chat_id` is made anywhere on this path. -/
def handle_menu_problem (db : DB) (user : User) (role problem : String) (now : Nat) :
    DB × List Out :=
  let pre := menu_problem_pre db user role problem now
  let db2 := pre.1
  let user1 := pre.2
  match find_match db2 user1 role problem with
  | some m =>
      let created := create_chat db2 user1 m role problem now
      let db4 := remove_from_queue created.1 user1.id
      let db5 := remove_from_queue db4 m.id
      (db5, [Out.reply searching_text,
             Out.send user1.telegram_id (match_found_text m.age user1.age),
             Out.send m.telegram_id (match_found_text user1.age m.age)])
  | none =>
      (db2, [Out.reply searching_text, Out.send user1.telegram_id queued_text])

/-- Staleness test of the sweep (bot.py line 759): the queue entry's user
is missing, banned, or already has a current chat. -/
def staleUser (db : DB) (uid : Nat) : Bool :=
  match findUserById db uid with
  | none => true
  | some u => u.is_banned || u.current_chat_id.isSome

/-- Accumulated state of one run of the periodic sweep: the evolving
store, the per-run `processed_users` set (modelled as a list), and the
notifications sent so far. -/
structure SweepState where
  db : DB
  processed : List Nat
  outs : List Out
deriving DecidableEq, Repr

/-- One iteration of the sweep loop of `periodic_matchmaking_task`
(bot.py lines 752-802): skip already-processed users; remove stale
entries; otherwise search for a match, re-confirm the candidate is still
chat-free, create the chat, dequeue both sides, record both as processed
and notify them. -/
def sweepStep (now : Nat) (s : SweepState) (entry : QueueEntry) : SweepState :=
  if entry.user_id ∈ s.processed then s
  else
    match findUserById s.db entry.user_id with
    | none => { s with db := remove_from_queue s.db entry.user_id }
    | some user =>
      if user.is_banned || user.current_chat_id.isSome then
        { s with db := remove_from_queue s.db entry.user_id }
      else
        match find_match s.db user entry.role entry.problem_type with
        | none => { s with processed := s.processed ++ [user.id] }
        | some m =>
          match findUserById s.db m.id with
          | none => { s with processed := s.processed ++ [user.id] }
          | some match_user =>
            if match_user.current_chat_id = none then
              let created := create_chat s.db user match_user entry.role entry.problem_type now
              let db2 := remove_from_queue created.1 user.id
              let db3 := remove_from_queue db2 match_user.id
              { db := db3,
                processed := s.processed ++ [match_user.id] ++ [user.id],
                outs := s.outs ++
                  [Out.send user.telegram_id (match_found_text match_user.age user.age),
                   Out.send match_user.telegram_id (match_found_text user.age match_user.age)] }
            else { s with processed := s.processed ++ [user.id] }

/-- Model of `periodic_matchmaking_task` (bot.py lines 741-807): load the
whole queue once, then fold the sweep iteration over it starting from an
empty processed set. -/
def periodic_matchmaking_task (db : DB) (now : Nat) : SweepState :=
  db.queue.foldl (sweepStep now) ⟨db, [], []⟩

/-- The freshly initialised store (`init_db`: all tables empty). -/
def emptyDB : DB :=
  { users := [], chats := [], messages := [], chat_history := [], queue := [],
    next_chat_id := 1, next_message_id := 1, next_history_id := 1, next_queue_id := 1 }

/-- A freshly registered user row (age capture, bot.py lines 104-109). -/
def sampleUser (i tg : Nat) (age : Int) : User :=
  { id := i, telegram_id := tg, age := age, is_banned := false, registered_at := 0,
    current_chat_id := none, current_role := none, current_problem := none }

/-- A store holding one registered 15-year-old user. -/
def sampleDB1 : DB := { emptyDB with users := [sampleUser 1 100 15] }

/-- First participant of the sample active chat. -/
def sampleU1 : User := { sampleUser 1 100 15 with current_chat_id := some 1 }

/-- Second participant of the sample active chat. -/
def sampleU2 : User := { sampleUser 2 200 16 with current_chat_id := some 1 }

/-- A realized active pairing between the two sample users. -/
def sampleChat1 : Chat :=
  { id := 1, user1_id := 1, user2_id := 2, role1 := "support",
    role2 := "receive_support", problem_type := "study", created_at := 0,
    is_active := true, ended_at := none }

/-- A store holding two users joined in one active chat. -/
def sampleChatDB : DB :=
  { emptyDB with users := [sampleU1, sampleU2], chats := [sampleChat1], next_chat_id := 2 }

/-- A waiting 18-year-old support seeker's queue entry. -/
def sampleEntry4 : QueueEntry :=
  { id := 1, user_id := 4, role := "receive_support", problem_type := "study",
    age := 18, joined_at := 2 }

/-- A store holding a 16-year-old requester and a queued 18-year-old
support seeker. -/
def sampleQueueDB : DB :=
  { emptyDB with
    users := [sampleUser 3 300 16, sampleUser 4 400 18],
    queue := [sampleEntry4], next_queue_id := 2 }

/-- A queued 16-year-old support seeker compatible with the sample
15-year-old requester. -/
def sampleEntry6 : QueueEntry :=
  { id := 1, user_id := 6, role := "receive_support", problem_type := "study",
    age := 16, joined_at := 1 }

/-- The sample chat store extended with a free queued candidate, while
user 1 still has an active chat. -/
def sampleMenuDB : DB :=
  { sampleChatDB with
    users := [sampleU1, sampleU2, sampleUser 6 600 16],
    queue := [sampleEntry6], next_queue_id := 2 }

/-- A message sent by user 1 inside the sample chat. -/
def sampleMsg1 : Message :=
  { id := 1, chat_id := 1, user_id := 1, text := "hello", sent_at := 3 }

/-- The sample chat store together with one stored message. -/
def sampleViewDB : DB :=
  { sampleChatDB with messages := [sampleMsg1], next_message_id := 2 }

/-- A banned user's stale queue entry. -/
def sampleStaleEntry : QueueEntry :=
  { id := 1, user_id := 7, role := "support", problem_type := "study",
    age := 15, joined_at := 0 }

/-- A store whose only queue entry belongs to a banned user. -/
def sampleStaleDB : DB :=
  { emptyDB with
    users := [{ sampleUser 7 700 15 with is_banned := true }],
    queue := [sampleStaleEntry], next_queue_id := 2 }

/-- A history row of user 1. -/
def sampleHist (i c v : Nat) : ChatHistory :=
  { id := i, user_id := 1, chat_id := c, viewed_at := v }

/-- A store where user 1 already holds three history rows. -/
def sampleHistDB : DB :=
  { emptyDB with
    chat_history := [sampleHist 1 10 5, sampleHist 2 11 3, sampleHist 3 12 8],
    next_history_id := 4 }

/-- Mapping a predicate-invariant function across a list commutes with
`find?`. -/
theorem find?_map_invariant {α : Type} (p : α → Bool) (g : α → α)
    (hp : ∀ a, p (g a) = p a) (l : List α) :
    (l.map g).find? p = (l.find? p).map g := by
  induction l with
  | nil => rfl
  | cons a l ih =>
    cases hpa : p a
    · rw [List.map_cons, List.find?_cons_of_neg _ (by simp [hp, hpa]),
        List.find?_cons_of_neg _ (by simp [hpa]), ih]
    · rw [List.map_cons, List.find?_cons_of_pos _ (by simp [hp, hpa]),
        List.find?_cons_of_pos _ (by simp [hpa]), Option.map_some']

/-- Mapping a predicate-invariant function across a list commutes with
`filter`. -/
theorem filter_map_invariant {α : Type} (p : α → Bool) (g : α → α)
    (hp : ∀ a, p (g a) = p a) (l : List α) :
    (l.map g).filter p = (l.filter p).map g := by
  induction l with
  | nil => rfl
  | cons a l ih =>
    cases hpa : p a <;>
      simp [List.filter_cons, hp, hpa, ih]

theorem mem_insertByKey {α : Type} (key : α → Nat) (x : α) (l : List α) (a : α) :
    a ∈ insertByKey key x l ↔ a = x ∨ a ∈ l := by
  induction l with
  | nil => simp [insertByKey]
  | cons y ys ih =>
    by_cases h : key y ≤ key x
    · simp only [insertByKey, if_pos h, List.mem_cons, ih]
      tauto
    · simp [insertByKey, if_neg h]

theorem mem_sortByKey {α : Type} (key : α → Nat) (l : List α) (a : α) :
    a ∈ sortByKey key l ↔ a ∈ l := by
  induction l with
  | nil => simp [sortByKey]
  | cons x xs ih => simp [sortByKey, mem_insertByKey, ih]

theorem insertByKey_ne_nil {α : Type} (key : α → Nat) (x : α) (l : List α) :
    insertByKey key x l ≠ [] := by
  cases l with
  | nil => simp [insertByKey]
  | cons y ys => by_cases h : key y ≤ key x <;> simp [insertByKey, h]

theorem sortByKey_eq_nil_iff {α : Type} (key : α → Nat) (l : List α) :
    sortByKey key l = [] ↔ l = [] := by
  cases l with
  | nil => simp [sortByKey]
  | cons x xs => simp [sortByKey, insertByKey_ne_nil]

/-- The head of the stable sort has minimal key among the list's
elements. -/
theorem sortByKey_head_le {α : Type} (key : α → Nat) (l : List α) (x : α) (t : List α)
    (h : sortByKey key l = x :: t) : ∀ y ∈ l, key x ≤ key y := by
  induction l generalizing x t with
  | nil => simp [sortByKey] at h
  | cons a as ih =>
    rw [sortByKey] at h
    cases hs : sortByKey key as with
    | nil =>
      rw [hs] at h
      have has : as = [] := (sortByKey_eq_nil_iff key as).mp hs
      simp only [insertByKey] at h
      obtain ⟨rfl, rfl⟩ := List.cons.inj h
      intro y hy
      rcases List.mem_cons.mp hy with rfl | hy'
      · exact le_refl _
      · rw [has] at hy'; cases hy'
    | cons b bs =>
      rw [hs] at h
      by_cases hk : key b ≤ key a
      · rw [insertByKey, if_pos hk] at h
        obtain ⟨rfl, -⟩ := List.cons.inj h
        intro y hy
        rcases List.mem_cons.mp hy with rfl | hy'
        · exact hk
        · exact ih b bs hs y hy'
      · rw [insertByKey, if_neg hk] at h
        obtain ⟨rfl, -⟩ := List.cons.inj h
        intro y hy
        rcases List.mem_cons.mp hy with rfl | hy'
        · exact le_refl _
        · have hb := ih b bs hs y hy'
          omega

/-- The head of the stable sort is an element of the list. -/
theorem sortByKey_head_mem {α : Type} (key : α → Nat) (l : List α) (x : α) (t : List α)
    (h : sortByKey key l = x :: t) : x ∈ l := by
  have : x ∈ sortByKey key l := by rw [h]; exact List.mem_cons_self x t
  exact (mem_sortByKey key l x).mp this

/-- Under a duplicate-free key column, deleting by key equals erasing the
single row carrying that key. -/
theorem filter_key_ne_eq_erase {α : Type} [DecidableEq α] (key : α → Nat) (l : List α)
    (x : α) (hnd : (l.map key).Nodup) (hx : x ∈ l) :
    l.filter (fun a => !(key a == key x)) = l.erase x := by
  induction l with
  | nil => cases hx
  | cons a t ih =>
    rw [List.map_cons] at hnd
    have hnd' := List.nodup_cons.mp hnd
    rcases List.mem_cons.mp hx with rfl | hxt
    · rw [List.erase_cons_head, List.filter_cons, if_neg (by simp)]
      apply List.filter_eq_self.mpr
      intro b hb
      have hbk : key b ≠ key x := by
        intro he
        exact hnd'.1 (he ▸ List.mem_map_of_mem key hb)
      simpa using hbk
    · have hkne : key a ≠ key x := by
        intro he
        exact hnd'.1 (he ▸ List.mem_map_of_mem key hxt)
      have hax : a ≠ x := fun he => hkne (he ▸ rfl)
      rw [List.filter_cons, if_pos (by simpa using hkne),
        List.erase_cons_tail (by simpa using hax), ih hnd'.2 hxt]

/-- Removing a row satisfying `p` drops the `p`-count by exactly one. -/
theorem length_filter_erase {α : Type} [DecidableEq α] (p : α → Bool) (l : List α)
    (x : α) (hx : x ∈ l) (hpx : p x = true) :
    ((l.erase x).filter p).length + 1 = (l.filter p).length := by
  have hperm := (List.perm_cons_erase hx).filter p
  have hlen := hperm.length_eq
  rw [List.filter_cons, if_pos (by simpa using hpx)] at hlen
  simpa using hlen.symm

/-- Removing a row violating `p` leaves the `p`-count unchanged. -/
theorem length_filter_erase_of_neg {α : Type} [DecidableEq α] (p : α → Bool) (l : List α)
    (x : α) (hx : x ∈ l) (hpx : p x = false) :
    ((l.erase x).filter p).length = (l.filter p).length := by
  have hperm := (List.perm_cons_erase hx).filter p
  have hlen := hperm.length_eq
  rw [List.filter_cons, if_neg (by simp [hpx])] at hlen
  exact hlen.symm

/-- A list of length at most one containing `a` is exactly `[a]`. -/
theorem singleton_of_length_le_one {α : Type} {l : List α} {a : α}
    (h : l.length ≤ 1) (ha : a ∈ l) : l = [a] := by
  match l, ha with
  | [x], ha =>
    have : a = x := by simpa using ha
    rw [this]
  | x :: y :: t, _ => simp at h

/-- After `add_to_queue`, the requesting user's queue rows are exactly one
row carrying the given role, problem, the user's age and the admission
instant. -/
theorem add_to_queue_filter_self (db : DB) (u : User) (r p : String) (t : Nat)
    (h : (db.queue.filter (fun q => q.user_id == u.id)).length ≤ 1) :
    ∃ e, (add_to_queue db u r p t).queue.filter (fun q => q.user_id == u.id) = [e] ∧
      e.user_id = u.id ∧ e.role = r ∧ e.problem_type = p ∧ e.age = u.age ∧
      e.joined_at = t := by
  unfold add_to_queue
  cases hf : db.queue.find? (fun q => q.user_id == u.id) with
  | none =>
    have hnil : db.queue.filter (fun q => q.user_id == u.id) = [] := by
      rw [List.filter_eq_nil_iff]
      exact List.find?_eq_none.mp hf
    refine ⟨{ id := db.next_queue_id, user_id := u.id, role := r, problem_type := p,
              age := u.age, joined_at := t }, ?_, rfl, rfl, rfl, rfl, rfl⟩
    simp [List.filter_append, hnil]
  | some q0 =>
    have hp0 := List.find?_some hf
    have hmem : q0 ∈ db.queue := List.mem_of_find?_eq_some hf
    have hid : q0.user_id = u.id := by simpa using hp0
    have hfil : db.queue.filter (fun q => q.user_id == u.id) = [q0] :=
      singleton_of_length_le_one h (List.mem_filter.mpr ⟨hmem, by simpa using hid⟩)
    have hinv : ∀ a : QueueEntry,
        ((fun q => q.user_id == u.id)
          ((fun q => if q.user_id = u.id then { q with role := r, problem_type := p, age := u.age, joined_at := t } else q) a)) =
        ((fun q => q.user_id == u.id) a) := by
      intro a
      by_cases ha : a.user_id = u.id <;> simp [ha]
    simp only []
    rw [filter_map_invariant _ _ hinv, hfil]
    exact ⟨_, rfl, by simp [hid], by simp [hid], by simp [hid], by simp [hid], by simp [hid]⟩

/-- `add_to_queue` leaves every other user's queue rows untouched. -/
theorem add_to_queue_preserves_others (db : DB) (u : User) (r p : String) (t : Nat) :
    ∀ e ∈ (add_to_queue db u r p t).queue, e.user_id ≠ u.id → e ∈ db.queue := by
  intro e he hne
  unfold add_to_queue at he
  cases hf : db.queue.find? (fun q => q.user_id == u.id) with
  | none =>
    rw [hf] at he
    simp only [List.mem_append, List.mem_singleton] at he
    rcases he with he | he
    · exact he
    · exact absurd (by rw [he]) hne
  | some q0 =>
    rw [hf] at he
    simp only [List.mem_map] at he
    obtain ⟨b, hb, hbe⟩ := he
    by_cases hbid : b.user_id = u.id
    · rw [if_pos hbid] at hbe
      exact absurd (by rw [← hbe]; exact hbid) hne
    · rw [if_neg hbid] at hbe
      rw [← hbe]
      exact hb

/-- C3: for every integer input, `get_age_range` returns exactly the
spec's table — 14↦[14,16], 15↦[14,17], 16↦[14,18], 17↦[15,18], 18↦[16,18]
— and returns [14,18] for every other integer. -/
theorem spec_C3_age_range_table :
    (get_age_range 14 = (14, 16) ∧ get_age_range 15 = (14, 17) ∧
     get_age_range 16 = (14, 18) ∧ get_age_range 17 = (15, 18) ∧
     get_age_range 18 = (16, 18)) ∧
    ∀ a : Int, a < 14 ∨ 18 < a → get_age_range a = (14, 18) := by
  constructor
  · refine ⟨by decide, by decide, by decide, by decide, by decide⟩
  · intro a ha
    unfold get_age_range MIN_AGE MAX_AGE
    split_ifs with h1 h2 h3 h4 h5 <;> first | rfl | omega

theorem spec_C3_age_range_table_witness : get_age_range 13 = (14, 18) :=
  spec_C3_age_range_table.2 13 (Or.inl (by norm_num))

/-- C6: admitting the same user to the queue twice (with possibly
different role, topic, or age on the second admission) leaves exactly one
QueueEntry for that user, carrying the latest role and topic, the user's
current age, and the joined timestamp of the second admission; every
other user's queue rows are untouched. -/
theorem spec_C6_queue_double_upsert (db : DB) (u1 u2 : User) (r1 p1 : String) (t1 : Nat)
    (r2 p2 : String) (t2 : Nat) (hid : u2.id = u1.id)
    (hwf : (db.queue.filter (fun q => q.user_id == u1.id)).length ≤ 1) :
    (∃ e, (add_to_queue (add_to_queue db u1 r1 p1 t1) u2 r2 p2 t2).queue.filter
        (fun q => q.user_id == u1.id) = [e] ∧
      e.user_id = u1.id ∧ e.role = r2 ∧ e.problem_type = p2 ∧ e.age = u2.age ∧
      e.joined_at = t2) ∧
    (∀ e ∈ (add_to_queue (add_to_queue db u1 r1 p1 t1) u2 r2 p2 t2).queue,
      e.user_id ≠ u1.id → e ∈ db.queue) := by
  obtain ⟨e1, he1, -, -, -, -, -⟩ := add_to_queue_filter_self db u1 r1 p1 t1 hwf
  constructor
  · have hlen : ((add_to_queue db u1 r1 p1 t1).queue.filter
        (fun q => q.user_id == u2.id)).length ≤ 1 := by
      rw [hid, he1]
      simp
    have h2 := add_to_queue_filter_self (add_to_queue db u1 r1 p1 t1) u2 r2 p2 t2 hlen
    rw [hid] at h2
    exact h2
  · intro e he hne
    have hstep := add_to_queue_preserves_others (add_to_queue db u1 r1 p1 t1) u2 r2 p2 t2
      e he (by rw [hid]; exact hne)
    exact add_to_queue_preserves_others db u1 r1 p1 t1 e hstep hne

/-- Looking a user up by platform id in a store whose rows were updated at
some internal id, when the update keeps the platform id, finds the
(possibly updated) original row. -/
theorem findUserByTg_updAt (db : DB) (tg : Nat) (user : User) (k : Nat) (f : User → User)
    (hf : ∀ u, (f u).telegram_id = u.telegram_id)
    (hu : findUserByTg db tg = some user) :
    findUserByTg { db with users := updAt User.id k f db.users } tg =
      some (if user.id = k then f user else user) := by
  unfold findUserByTg updAt at *
  rw [show db.users.map (fun a => if a.id = k then f a else a) =
      (fun l : List User => l.map (fun a => if a.id = k then f a else a)) db.users from rfl]
  rw [find?_map_invariant _ _ (fun a => by by_cases h : a.id = k <;> simp [h, hf]) db.users, hu]
  rfl

/-- C1: a profane plain-text message from a registered, not-yet-banned
user sets the sender's banned flag, creates no Message row, forwards
nothing, and returns the permanent-ban notice; afterwards (and for any
banned user) every message is refused, with nothing stored or forwarded,
regardless of its text. -/
theorem spec_C1_moderation_ban (prof : String → Bool) (db : DB) (tg : Nat)
    (text : String) (now : Nat) (user : User)
    (hu : findUserByTg db tg = some user) :
    (user.is_banned = false → prof text = true →
      handle_message prof db tg text now =
        ({ db with users := updAt User.id user.id (fun u => { u with is_banned := true }) db.users },
         [Out.reply profanity_ban_text]) ∧
      findUserByTg { db with users := updAt User.id user.id (fun u => { u with is_banned := true }) db.users } tg =
        some { user with is_banned := true } ∧
      (∀ text2 now2,
        handle_message prof
          { db with users := updAt User.id user.id (fun u => { u with is_banned := true }) db.users }
          tg text2 now2 =
        ({ db with users := updAt User.id user.id (fun u => { u with is_banned := true }) db.users },
         [Out.reply banned_refusal_text]))) ∧
    (user.is_banned = true →
      ∀ text2 now2, handle_message prof db tg text2 now2 = (db, [Out.reply banned_refusal_text])) := by
  constructor
  · intro hb hp
    have hfind := findUserByTg_updAt db tg user user.id
      (fun u => { u with is_banned := true }) (fun _ => rfl) hu
    rw [if_pos rfl] at hfind
    refine ⟨?_, hfind, ?_⟩
    · unfold handle_message
      rw [hu]
      simp [hb, hp]
    · intro text2 now2
      unfold handle_message
      rw [hfind]
      simp
  · intro hb text2 now2
    unfold handle_message
    rw [hu]
    simp [hb]

theorem spec_C1_moderation_ban_witness :
    handle_message (fun s => s == "badword") sampleDB1 100 "badword" 7 =
      ({ sampleDB1 with
          users := updAt User.id 1 (fun u => { u with is_banned := true }) sampleDB1.users },
       [Out.reply profanity_ban_text]) :=
  ((spec_C1_moderation_ban (fun s => s == "badword") sampleDB1 100 "badword" 7
    (sampleUser 1 100 15) rfl).1 rfl rfl).1

theorem spec_C6_queue_double_upsert_witness :
    ∃ e, (add_to_queue (add_to_queue emptyDB (sampleUser 1 100 15) "support" "study" 5)
        (sampleUser 1 100 15) "receive_support" "friends" 9).queue.filter
        (fun q => q.user_id == 1) = [e] ∧
      e.user_id = 1 ∧ e.role = "receive_support" ∧ e.problem_type = "friends" ∧
      e.age = 15 ∧ e.joined_at = 9 :=
  (spec_C6_queue_double_upsert emptyDB (sampleUser 1 100 15) (sampleUser 1 100 15)
    "support" "study" 5 "receive_support" "friends" 9 rfl (by decide)).1

/-- C7: a non-profane message from a registered non-banned user whose
current chat is active and whose partner resolves creates exactly one
Message row (owning chat, author, verbatim text) and is sent to exactly
the partner's platform id, never back to the sender; a missing or
inactive chat, or an unresolvable partner, yields an explanatory error
and nothing stored or forwarded. -/
theorem spec_C7_relay (prof : String → Bool) (db : DB) (tg : Nat) (text : String)
    (now : Nat) (user : User) (cid : Nat)
    (hu : findUserByTg db tg = some user)
    (hb : user.is_banned = false)
    (hp : prof text = false)
    (hc : user.current_chat_id = some cid) :
    (∀ chat partner, findChat db cid = some chat → chat.is_active = true →
      findUserById db (partner_id_of chat user) = some partner →
      (handle_message prof db tg text now =
        ({ db with
            messages := db.messages ++
              [{ id := db.next_message_id, chat_id := chat.id, user_id := user.id,
                 text := text, sent_at := now }],
            next_message_id := db.next_message_id + 1 },
         [Out.send partner.telegram_id text]) ∧
       ((db.users.map User.telegram_id).Nodup → partner.id ≠ user.id →
         partner.telegram_id ≠ tg))) ∧
    (findChat db cid = none →
      handle_message prof db tg text now = (db, [Out.reply chat_not_active_text])) ∧
    (∀ chat, findChat db cid = some chat → chat.is_active = false →
      handle_message prof db tg text now = (db, [Out.reply chat_not_active_text])) ∧
    (∀ chat, findChat db cid = some chat → chat.is_active = true →
      findUserById db (partner_id_of chat user) = none →
      handle_message prof db tg text now = (db, [Out.reply partner_not_found_text])) := by
  have htg : user.telegram_id = tg := by
    have := List.find?_some hu
    simpa using this
  refine ⟨?_, ?_, ?_, ?_⟩
  · intro chat partner hchat hact hpartner
    constructor
    · unfold handle_message
      rw [hu]
      simp [hb, hp, hc, hchat, hact, hpartner]
    · intro hnd hne heq
      have hmu : user ∈ db.users := List.mem_of_find?_eq_some hu
      have hmp : partner ∈ db.users := List.mem_of_find?_eq_some hpartner
      have : partner = user :=
        List.inj_on_of_nodup_map hnd hmp hmu (by rw [heq, htg])
      exact hne (by rw [this])
  · intro hchat
    unfold handle_message
    rw [hu]
    simp [hb, hp, hc, hchat]
  · intro chat hchat hact
    unfold handle_message
    rw [hu]
    simp [hb, hp, hc, hchat, hact]
  · intro chat hchat hact hpartner
    unfold handle_message
    rw [hu]
    simp [hb, hp, hc, hchat, hact, hpartner]

theorem spec_C7_relay_witness :
    handle_message (fun _ => false) sampleChatDB 100 "привет" 7 =
      ({ sampleChatDB with
          messages := sampleChatDB.messages ++
            [{ id := 1, chat_id := 1, user_id := 1, text := "привет", sent_at := 7 }],
          next_message_id := 2 },
       [Out.send 200 "привет"]) :=
  ((spec_C7_relay (fun _ => false) sampleChatDB 100 "привет" 7 sampleU1 1
    rfl rfl rfl rfl).1 sampleChat1 sampleU2 rfl rfl rfl).1

/-- Membership in the candidate join of `find_match` is exactly the
spec's admission condition on the store's queue. -/
theorem mem_matchCandidates (db : DB) (user : User) (role problem : String)
    (q : QueueEntry) (u : User) :
    (q, u) ∈ matchCandidates db user (opposite_of role) problem
      (get_age_range user.age).1 (get_age_range user.age).2 ↔
    q ∈ db.queue ∧ eligibleEntry db user role problem q u := by
  unfold matchCandidates
  rw [List.mem_filterMap]
  constructor
  · rintro ⟨q', hq', hf⟩
    split at hf
    · exact Option.noConfusion hf
    · rename_i u' hfind
      split at hf
      · rename_i hcond
        obtain ⟨h1, h2⟩ := Prod.mk.inj (Option.some.inj hf)
        subst h1
        subst h2
        exact ⟨hq', hfind, hcond⟩
      · exact Option.noConfusion hf
  · rintro ⟨hq, hfind, hcond⟩
    refine ⟨q, hq, ?_⟩
    simp only [hfind]
    rw [if_pos hcond]

/-- C2: `find_match` considers exactly the queue entries meeting the
spec's admission condition; any returned candidate meets it, has the
minimal joined timestamp among all admissible entries, and passes the
reciprocity check on the requester's age; when no entry passes both
checks, no match is returned. -/
theorem spec_C2_find_match (db : DB) (user : User) (role problem : String) :
    (∀ q u, (q, u) ∈ matchCandidates db user (opposite_of role) problem
        (get_age_range user.age).1 (get_age_range user.age).2 ↔
      q ∈ db.queue ∧ eligibleEntry db user role problem q u) ∧
    (∀ m, find_match db user role problem = some m →
      ∃ q, q ∈ db.queue ∧ eligibleEntry db user role problem q m ∧
        (∀ q' u', q' ∈ db.queue → eligibleEntry db user role problem q' u' →
          q.joined_at ≤ q'.joined_at) ∧
        (get_age_range m.age).1 ≤ user.age ∧ user.age ≤ (get_age_range m.age).2) ∧
    ((¬ ∃ q u, q ∈ db.queue ∧ eligibleEntry db user role problem q u ∧
        (get_age_range u.age).1 ≤ user.age ∧ user.age ≤ (get_age_range u.age).2) →
      find_match db user role problem = none) := by
  refine ⟨mem_matchCandidates db user role problem, ?_, ?_⟩
  · intro m hm
    unfold find_match at hm
    cases hs : sortByKey (fun qu => qu.1.joined_at)
        (matchCandidates db user (opposite_of role) problem
          (get_age_range user.age).1 (get_age_range user.age).2) with
    | nil => rw [hs] at hm; exact Option.noConfusion hm
    | cons qu t =>
      obtain ⟨q0, u0⟩ := qu
      simp only [hs] at hm
      by_cases hrec : (get_age_range u0.age).1 ≤ user.age ∧
          user.age ≤ (get_age_range u0.age).2
      · rw [if_pos hrec] at hm
        obtain rfl : u0 = m := Option.some.inj hm
        have hmem := sortByKey_head_mem _ _ _ _ hs
        obtain ⟨hq0, helig⟩ := (mem_matchCandidates db user role problem q0 u0).mp hmem
        refine ⟨q0, hq0, helig, ?_, hrec⟩
        intro q' u' hq' helig'
        have hmem' : (q', u') ∈ matchCandidates db user (opposite_of role) problem
            (get_age_range user.age).1 (get_age_range user.age).2 :=
          (mem_matchCandidates db user role problem q' u').mpr ⟨hq', helig'⟩
        exact sortByKey_head_le _ _ _ _ hs (q', u') hmem'
      · rw [if_neg hrec] at hm; cases hm
  · intro hnone
    unfold find_match
    cases hs : sortByKey (fun qu => qu.1.joined_at)
        (matchCandidates db user (opposite_of role) problem
          (get_age_range user.age).1 (get_age_range user.age).2) with
    | nil => rfl
    | cons qu t =>
      obtain ⟨q0, u0⟩ := qu
      have hmem := sortByKey_head_mem _ _ _ _ hs
      obtain ⟨hq0, helig⟩ := (mem_matchCandidates db user role problem q0 u0).mp hmem
      by_cases hrec : (get_age_range u0.age).1 ≤ user.age ∧
          user.age ≤ (get_age_range u0.age).2
      · exact absurd ⟨q0, u0, hq0, helig, hrec⟩ hnone
      · exact if_neg hrec

theorem spec_C2_find_match_witness :
    ∃ q, q ∈ sampleQueueDB.queue ∧
      eligibleEntry sampleQueueDB (sampleUser 3 300 16) "support" "study" q
        (sampleUser 4 400 18) ∧
      (∀ q' u', q' ∈ sampleQueueDB.queue →
        eligibleEntry sampleQueueDB (sampleUser 3 300 16) "support" "study" q' u' →
        q.joined_at ≤ q'.joined_at) ∧
      (get_age_range (18 : Int)).1 ≤ (16 : Int) ∧
      (16 : Int) ≤ (get_age_range (18 : Int)).2 :=
  (spec_C2_find_match sampleQueueDB (sampleUser 3 300 16) "support" "study").2.1
    (sampleUser 4 400 18) (by decide)

/-- Filtering away a present row that fails the predicate strictly
shrinks the list. -/
theorem length_filter_lt_of_mem_neg {α : Type} (q : α → Bool) (l : List α) (x : α)
    (hx : x ∈ l) (hqx : q x = false) : (l.filter q).length < l.length := by
  induction l with
  | nil => cases hx
  | cons a t ih =>
    rcases List.mem_cons.mp hx with rfl | hxt
    · rw [List.filter_cons, if_neg (by simp [hqx])]
      exact Nat.lt_succ_of_le (List.length_filter_le q t)
    · rw [List.filter_cons]
      by_cases hqa : q a = true
      · rw [if_pos (by simp [hqa])]
        simpa using Nat.succ_lt_succ (ih hxt)
      · rw [if_neg (by simp [hqa])]
        exact Nat.lt_succ_of_lt (ih hxt)

theorem userHistory_append (l1 l2 : List ChatHistory) (uid : Nat) :
    userHistory (l1 ++ l2) uid = userHistory l1 uid ++ userHistory l2 uid := by
  unfold userHistory
  exact List.filter_append _ _

/-- Eviction only deletes rows: everything left was already present. -/
theorem mem_evict_oldest_sub (hist : List ChatHistory) (uid : Nat) :
    ∀ a ∈ evict_oldest hist uid, a ∈ hist := by
  intro a ha
  unfold evict_oldest at ha
  split at ha
  · exact ha
  · exact (List.mem_filter.mp ha).1

/-- Eviction strictly shrinks a nonempty user history. -/
theorem evict_oldest_lt (hist : List ChatHistory) (uid : Nat)
    (hne : userHistory hist uid ≠ []) :
    (userHistory (evict_oldest hist uid) uid).length < (userHistory hist uid).length := by
  unfold evict_oldest
  cases hs : sortByKey (fun h => h.viewed_at) (userHistory hist uid) with
  | nil => exact absurd ((sortByKey_eq_nil_iff _ _).mp hs) hne
  | cons old rest =>
    have hmem : old ∈ userHistory hist uid := sortByKey_head_mem _ _ _ _ hs
    unfold userHistory at hmem ⊢
    have hcomm : (fun h : ChatHistory => (h.user_id == uid) && !(h.id == old.id)) =
        (fun h : ChatHistory => !(h.id == old.id) && (h.user_id == uid)) := by
      funext h
      exact Bool.and_comm _ _
    rw [List.filter_filter, hcomm, ← List.filter_filter]
    exact length_filter_lt_of_mem_neg _ _ old hmem (by simp)

/-- When the (user, chat) pair already has a row, recording only refreshes
viewed timestamps in place. -/
theorem record_history_update (db : DB) (uid cid now : Nat) (h0 : ChatHistory)
    (hf : db.chat_history.find? (fun h => h.user_id == uid && h.chat_id == cid) = some h0) :
    (record_history db uid cid now).chat_history =
      db.chat_history.map (fun h =>
        if h.user_id = uid ∧ h.chat_id = cid then { h with viewed_at := now } else h) := by
  unfold record_history
  simp only [hf]

/-- C5: after any history-recording operation a user with at most 3 rows
still has at most 3 rows; recording a new (user, chat) pair when 3 or
more rows exist first evicts a single row whose viewed timestamp is
minimal for that user; re-recording an existing pair refreshes its viewed
timestamp in place instead of inserting a duplicate. -/
theorem spec_C5_history_bound (db : DB) (uid cid now : Nat) :
    ((userHistory db.chat_history uid).length ≤ 3 →
      (userHistory (record_history db uid cid now).chat_history uid).length ≤ 3) ∧
    (db.chat_history.find? (fun h => h.user_id == uid && h.chat_id == cid) = none →
      3 ≤ (userHistory db.chat_history uid).length →
      ∃ old, old ∈ userHistory db.chat_history uid ∧
        (∀ e ∈ userHistory db.chat_history uid, old.viewed_at ≤ e.viewed_at) ∧
        (record_history db uid cid now).chat_history =
          db.chat_history.filter (fun h => !(h.id == old.id)) ++
            [{ id := db.next_history_id, user_id := uid, chat_id := cid,
               viewed_at := now }]) ∧
    (∀ h0, db.chat_history.find? (fun h => h.user_id == uid && h.chat_id == cid) = some h0 →
      (record_history db uid cid now).chat_history.length = db.chat_history.length ∧
      pairCount (record_history db uid cid now).chat_history uid cid =
        pairCount db.chat_history uid cid ∧
      ∀ h' ∈ (record_history db uid cid now).chat_history,
        (h'.user_id = uid ∧ h'.chat_id = cid → h'.viewed_at = now) ∧
        (¬(h'.user_id = uid ∧ h'.chat_id = cid) → h' ∈ db.chat_history)) := by
  refine ⟨?_, ?_, ?_⟩
  · intro hle
    unfold record_history
    cases hf : db.chat_history.find? (fun h => h.user_id == uid && h.chat_id == cid) with
    | some h0 =>
      simp only [hf]
      unfold userHistory
      rw [filter_map_invariant _ _ (fun a => by
        by_cases ha : a.user_id = uid ∧ a.chat_id = cid <;> simp [ha]), List.length_map]
      exact hle
    | none =>
      simp only [hf]
      rw [userHistory_append, List.length_append]
      have hone : (userHistory [{ id := db.next_history_id, user_id := uid, chat_id := cid, viewed_at := now }] uid).length = 1 := by
        simp [userHistory]
      rw [hone]
      by_cases hc : 3 ≤ (userHistory db.chat_history uid).length
      · rw [if_pos hc]
        have hne : userHistory db.chat_history uid ≠ [] := by
          intro h0
          rw [h0] at hc
          simp at hc
        have hlt := evict_oldest_lt db.chat_history uid hne
        omega
      · rw [if_neg hc]
        omega
  · intro hf hcount
    cases hs : sortByKey (fun h => h.viewed_at) (userHistory db.chat_history uid) with
    | nil =>
      exfalso
      have h0 := (sortByKey_eq_nil_iff _ _).mp hs
      rw [h0] at hcount
      simp at hcount
    | cons old rest =>
      refine ⟨old, sortByKey_head_mem _ _ _ _ hs, sortByKey_head_le _ _ _ _ hs, ?_⟩
      unfold record_history
      simp only [hf]
      rw [if_pos hcount]
      unfold evict_oldest
      rw [hs]
  · intro h0 hf
    have hupd := record_history_update db uid cid now h0 hf
    refine ⟨by rw [hupd, List.length_map], ?_, ?_⟩
    · unfold pairCount
      rw [hupd, filter_map_invariant _ _ (fun a => by
        by_cases ha : a.user_id = uid ∧ a.chat_id = cid <;> simp [ha]), List.length_map]
    · intro h' hm
      rw [hupd] at hm
      obtain ⟨b, hb, rfl⟩ := List.mem_map.mp hm
      by_cases hb2 : b.user_id = uid ∧ b.chat_id = cid
      · rw [if_pos hb2]
        exact ⟨fun _ => rfl, fun hnp => absurd hb2 hnp⟩
      · rw [if_neg hb2]
        exact ⟨fun hp => absurd hp hb2, fun _ => hb⟩

theorem spec_C5_history_bound_witness :
    ∃ old, old ∈ userHistory sampleHistDB.chat_history 1 ∧
      (∀ e ∈ userHistory sampleHistDB.chat_history 1, old.viewed_at ≤ e.viewed_at) ∧
      (record_history sampleHistDB 1 13 9).chat_history =
        sampleHistDB.chat_history.filter (fun h => !(h.id == old.id)) ++
          [{ id := 4, user_id := 1, chat_id := 13, viewed_at := 9 }] :=
  (spec_C5_history_bound sampleHistDB 1 13 9).2.1 (by decide) (by decide)

/-- A key-invariant map keeps the key column unchanged. -/
theorem map_key_invariant {α : Type} (key : α → Nat) (g : α → α)
    (hk : ∀ a, key (g a) = key a) (l : List α) : (l.map g).map key = l.map key := by
  induction l with
  | nil => rfl
  | cons a t ih => simp [hk, ih]

/-- Eviction is a sublist operation. -/
theorem evict_oldest_sublist (hist : List ChatHistory) (uid : Nat) :
    List.Sublist (evict_oldest hist uid) hist := by
  unfold evict_oldest
  split
  · exact List.Sublist.refl _
  · exact List.filter_sublist _

theorem record_history_users (db : DB) (uid cid now : Nat) :
    (record_history db uid cid now).users = db.users := by
  unfold record_history
  split <;> rfl

theorem record_history_chats (db : DB) (uid cid now : Nat) :
    (record_history db uid cid now).chats = db.chats := by
  unfold record_history
  split <;> rfl

/-- Recording history keeps history primary keys duplicate-free and below
the autoincrement counter. -/
theorem record_history_wf (db : DB) (uid cid now : Nat)
    (hnd : (db.chat_history.map ChatHistory.id).Nodup)
    (hfresh : ∀ h ∈ db.chat_history, h.id < db.next_history_id) :
    ((record_history db uid cid now).chat_history.map ChatHistory.id).Nodup ∧
    (∀ h ∈ (record_history db uid cid now).chat_history,
      h.id < (record_history db uid cid now).next_history_id) := by
  unfold record_history
  cases hf : db.chat_history.find? (fun h => h.user_id == uid && h.chat_id == cid) with
  | some h0 =>
    simp only [hf]
    constructor
    · rw [map_key_invariant ChatHistory.id _ (fun a => by
        by_cases ha : a.user_id = uid ∧ a.chat_id = cid <;> simp [ha])]
      exact hnd
    · intro h hm
      obtain ⟨b, hb, rfl⟩ := List.mem_map.mp hm
      by_cases hb2 : b.user_id = uid ∧ b.chat_id = cid
      · rw [if_pos hb2]
        exact hfresh b hb
      · rw [if_neg hb2]
        exact hfresh b hb
  | none =>
    simp only [hf]
    have hsub : List.Sublist (if 3 ≤ (userHistory db.chat_history uid).length then
        evict_oldest db.chat_history uid else db.chat_history) db.chat_history := by
      split
      · exact evict_oldest_sublist _ _
      · exact List.Sublist.refl _
    constructor
    · rw [List.map_append]
      rw [List.nodup_append]
      refine ⟨List.Nodup.sublist (hsub.map ChatHistory.id) hnd, by simp, ?_⟩
      intro x hx
      obtain ⟨b, hb, rfl⟩ := List.mem_map.mp hx
      have hlt := hfresh b (List.Sublist.mem hb hsub)
      simp only [List.map_cons, List.map_nil, List.mem_singleton]
      omega
    · intro h hm
      rcases List.mem_append.mp hm with hml | hmr
      · have := hfresh h (List.Sublist.mem hml hsub)
        omega
      · simp only [List.mem_singleton] at hmr
        rw [hmr]
        simp

/-- After recording an absent pair, or refreshing a present one, the pair
has exactly one row (given at most one before). -/
theorem record_history_pair_one (db : DB) (uid cid now : Nat)
    (h : pairCount db.chat_history uid cid ≤ 1) :
    pairCount (record_history db uid cid now).chat_history uid cid = 1 := by
  unfold record_history
  cases hf : db.chat_history.find? (fun h => h.user_id == uid && h.chat_id == cid) with
  | some h0 =>
    simp only [hf]
    unfold pairCount at *
    rw [filter_map_invariant _ _ (fun a => by
      by_cases ha : a.user_id = uid ∧ a.chat_id = cid <;> simp [ha]), List.length_map]
    have hp0 := List.find?_some hf
    have hmem := List.mem_of_find?_eq_some hf
    have hpos : 0 < (db.chat_history.filter
        (fun h => h.user_id == uid && h.chat_id == cid)).length :=
      List.length_pos_of_mem (List.mem_filter.mpr ⟨hmem, hp0⟩)
    omega
  | none =>
    simp only [hf]
    unfold pairCount
    rw [List.filter_append]
    have hnone := List.find?_eq_none.mp hf
    have hnil : (List.filter (fun h => h.user_id == uid && h.chat_id == cid)
        (if 3 ≤ (userHistory db.chat_history uid).length then
          evict_oldest db.chat_history uid else db.chat_history)) = [] := by
      rw [List.filter_eq_nil_iff]
      intro a ha
      apply hnone
      split at ha
      · exact mem_evict_oldest_sub _ _ a ha
      · exact ha
    rw [hnil]
    simp

/-- Recording one user's history never changes another user's pair
counts (primary keys assumed duplicate-free, as the table guarantees). -/
theorem record_history_pair_other (db : DB) (uid cid now uid' cid' : Nat)
    (hne : uid' ≠ uid)
    (hnd : (db.chat_history.map ChatHistory.id).Nodup) :
    pairCount (record_history db uid cid now).chat_history uid' cid' =
      pairCount db.chat_history uid' cid' := by
  unfold record_history
  cases hf : db.chat_history.find? (fun h => h.user_id == uid && h.chat_id == cid) with
  | some h0 =>
    simp only [hf]
    unfold pairCount
    rw [filter_map_invariant _ _ (fun a => by
      by_cases ha : a.user_id = uid ∧ a.chat_id = cid <;> simp [ha]), List.length_map]
  | none =>
    simp only [hf]
    unfold pairCount
    rw [List.filter_append]
    have hnew : (List.filter (fun h : ChatHistory => h.user_id == uid' && h.chat_id == cid')
        [{ id := db.next_history_id, user_id := uid, chat_id := cid, viewed_at := now }]) = [] := by
      simp [Ne.symm hne]
    rw [hnew]
    by_cases hc : 3 ≤ (userHistory db.chat_history uid).length
    · rw [if_pos hc]
      unfold evict_oldest
      cases hs : sortByKey (fun h => h.viewed_at) (userHistory db.chat_history uid) with
      | nil => simp
      | cons old rest =>
        have hmem := sortByKey_head_mem _ _ _ _ hs
        have hmem_l : old ∈ db.chat_history := (List.mem_filter.mp hmem).1
        have hold_uid : old.user_id = uid := by
          have := (List.mem_filter.mp hmem).2
          simpa using this
        dsimp only
        rw [filter_key_ne_eq_erase ChatHistory.id db.chat_history old hnd hmem_l]
        have := length_filter_erase_of_neg
          (fun h : ChatHistory => h.user_id == uid' && h.chat_id == cid') db.chat_history old
          hmem_l (by simp [hold_uid, Ne.symm hne])
        simpa using this
    · rw [if_neg hc]
      simp

/-- Effect of `setCurrentChat` on a user lookup: the found row is updated
exactly when it is the targeted one. -/
theorem findUserById_setCurrentChat (db : DB) (i k : Nat) (v : Option Nat) (user : User)
    (hu : findUserById db i = some user) :
    findUserById (setCurrentChat db k v) i =
      some (if user.id = k then { user with current_chat_id := v } else user) := by
  unfold setCurrentChat findUserById updAt at *
  rw [find?_map_invariant _ _ (fun a => by by_cases h : a.id = k <;> simp [h]) db.users, hu]
  rfl

/-- Effect of the chat in-place update on the chat lookup that found the
updated row. -/
theorem findChat_updAt_self (db : DB) (i : Nat) (chat : Chat) (f : Chat → Chat)
    (hf : ∀ c, (f c).id = c.id)
    (hc : findChat db i = some chat) :
    findChat { db with chats := updAt Chat.id chat.id f db.chats } i = some (f chat) := by
  unfold findChat updAt at *
  rw [find?_map_invariant _ _ (fun a => by by_cases h : a.id = chat.id <;> simp [h, hf])
    db.chats, hc]
  simp

/-- C4: ending a chat through the menu marks the referenced Chat inactive
with an ended timestamp, clears both participants' current-chat
references, leaves exactly one ChatHistory row per participant for that
chat, and notifies the partner. -/
theorem spec_C4_end_chat (db : DB) (user : User) (now : Nat) (cid : Nat) (chat : Chat)
    (partner : User)
    (hcur : user.current_chat_id = some cid)
    (hchat : findChat db cid = some chat)
    (hpart : user.id = chat.user1_id ∨ user.id = chat.user2_id)
    (hdistinct : chat.user1_id ≠ chat.user2_id)
    (hself : findUserById db user.id = some user)
    (hpartner : findUserById db (partner_id_of chat user) = some partner)
    (hnd : (db.chat_history.map ChatHistory.id).Nodup)
    (hfresh : ∀ h ∈ db.chat_history, h.id < db.next_history_id)
    (hpair_u : pairCount db.chat_history user.id chat.id ≤ 1)
    (hpair_p : pairCount db.chat_history partner.id chat.id ≤ 1) :
    findChat (handle_end_chat db user now).1 cid =
      some { chat with is_active := false, ended_at := some now } ∧
    (∃ u', findUserById (handle_end_chat db user now).1 user.id = some u' ∧
      u'.current_chat_id = none) ∧
    (∃ p', findUserById (handle_end_chat db user now).1 partner.id = some p' ∧
      p'.current_chat_id = none) ∧
    pairCount (handle_end_chat db user now).1.chat_history user.id chat.id = 1 ∧
    pairCount (handle_end_chat db user now).1.chat_history partner.id chat.id = 1 ∧
    (handle_end_chat db user now).2 =
      [Out.send partner.telegram_id partner_ended_text, Out.reply chat_ended_text] := by
  have hpid : partner.id = partner_id_of chat user := by
    have := List.find?_some hpartner
    simpa using this
  have hpne : partner.id ≠ user.id := by
    rw [hpid]
    rcases hpart with h1 | h2 <;> (unfold partner_id_of; split_ifs with h <;> omega)
  set db1 : DB := { db with chats := updAt Chat.id chat.id (fun c => { c with is_active := false, ended_at := some now }) db.chats } with hdb1
  set db2 : DB := setCurrentChat db1 partner.id none with hdb2
  set db3 : DB := setCurrentChat db2 user.id none with hdb3
  set db4 : DB := record_history db3 user.id chat.id now with hdb4
  set db5 : DB := record_history db4 partner.id chat.id now with hdb5
  have hres : handle_end_chat db user now =
      (db5, [Out.send partner.telegram_id partner_ended_text, Out.reply chat_ended_text]) := by
    rw [hdb5, hdb4, hdb3, hdb2, hdb1]
    unfold handle_end_chat
    simp only [hcur, hchat]
    simp only [show findUserById { db with chats := updAt Chat.id chat.id (fun c => { c with is_active := false, ended_at := some now }) db.chats } (partner_id_of chat user) = some partner from hpartner]
  have hchats3 : db3.chats = db1.chats := by
    rw [hdb3, hdb2]
    rfl
  have hchats5 : db5.chats = db3.chats := by
    rw [hdb5, hdb4, record_history_chats, record_history_chats]
  have hhist3 : db3.chat_history = db.chat_history := by
    rw [hdb3, hdb2, hdb1]
    rfl
  have hnext3 : db3.next_history_id = db.next_history_id := by
    rw [hdb3, hdb2, hdb1]
    rfl
  have husers4 : db4.users = db3.users := by
    rw [hdb4, record_history_users]
  have husers5 : db5.users = db4.users := by
    rw [hdb5, record_history_users]
  have hnd3 : (db3.chat_history.map ChatHistory.id).Nodup := by
    rw [hhist3]
    exact hnd
  have hfresh3 : ∀ h ∈ db3.chat_history, h.id < db3.next_history_id := by
    rw [hhist3, hnext3]
    exact hfresh
  have hF1 : findChat db5 cid = some { chat with is_active := false, ended_at := some now } := by
    have h1 : findChat db1 cid =
        some { chat with is_active := false, ended_at := some now } := by
      rw [hdb1]
      exact findChat_updAt_self db cid chat _ (fun c => rfl) hchat
    unfold findChat at h1 ⊢
    rw [hchats5, hchats3]
    exact h1
  have hself1 : findUserById db1 user.id = some user := by
    rw [hdb1]
    exact hself
  have hself2 : findUserById db2 user.id = some user := by
    rw [hdb2]
    have := findUserById_setCurrentChat db1 user.id partner.id none user hself1
    rwa [if_neg (Ne.symm hpne)] at this
  have hself3 : findUserById db3 user.id = some { user with current_chat_id := none } := by
    rw [hdb3]
    have := findUserById_setCurrentChat db2 user.id user.id none user hself2
    rwa [if_pos rfl] at this
  have hself5 : findUserById db5 user.id = some { user with current_chat_id := none } := by
    unfold findUserById at hself3 ⊢
    rw [husers5, husers4]
    exact hself3
  have hpartner1 : findUserById db1 partner.id = some partner := by
    rw [hdb1, hpid]
    exact hpartner
  have hpartner2 : findUserById db2 partner.id =
      some { partner with current_chat_id := none } := by
    rw [hdb2]
    have := findUserById_setCurrentChat db1 partner.id partner.id none partner hpartner1
    rwa [if_pos rfl] at this
  have hpartner3 : findUserById db3 partner.id =
      some { partner with current_chat_id := none } := by
    rw [hdb3]
    have := findUserById_setCurrentChat db2 partner.id user.id none _ hpartner2
    rwa [if_neg (by simpa using hpne)] at this
  have hpartner5 : findUserById db5 partner.id =
      some { partner with current_chat_id := none } := by
    unfold findUserById at hpartner3 ⊢
    rw [husers5, husers4]
    exact hpartner3
  have hnd4 : (db4.chat_history.map ChatHistory.id).Nodup := by
    rw [hdb4]
    exact (record_history_wf db3 user.id chat.id now hnd3 hfresh3).1
  have hpair_u4 : pairCount db4.chat_history user.id chat.id = 1 := by
    rw [hdb4]
    exact record_history_pair_one db3 user.id chat.id now (by rw [hhist3]; exact hpair_u)
  have hF4 : pairCount db5.chat_history user.id chat.id = 1 := by
    rw [hdb5, record_history_pair_other db4 partner.id chat.id now user.id chat.id
      (Ne.symm hpne) hnd4]
    exact hpair_u4
  have hpair_p4 : pairCount db4.chat_history partner.id chat.id ≤ 1 := by
    rw [hdb4, record_history_pair_other db3 user.id chat.id now partner.id chat.id hpne hnd3]
    rw [hhist3]
    exact hpair_p
  have hF5 : pairCount db5.chat_history partner.id chat.id = 1 := by
    rw [hdb5]
    exact record_history_pair_one db4 partner.id chat.id now hpair_p4
  rw [hres]
  exact ⟨hF1, ⟨_, hself5, rfl⟩, ⟨_, hpartner5, rfl⟩, hF4, hF5, rfl⟩

theorem spec_C4_end_chat_witness :
    findChat (handle_end_chat sampleChatDB sampleU1 9).1 1 =
      some { sampleChat1 with is_active := false, ended_at := some 9 } ∧
    (∃ u', findUserById (handle_end_chat sampleChatDB sampleU1 9).1 1 = some u' ∧
      u'.current_chat_id = none) ∧
    (∃ p', findUserById (handle_end_chat sampleChatDB sampleU1 9).1 2 = some p' ∧
      p'.current_chat_id = none) ∧
    pairCount (handle_end_chat sampleChatDB sampleU1 9).1.chat_history 1 1 = 1 ∧
    pairCount (handle_end_chat sampleChatDB sampleU1 9).1.chat_history 2 1 = 1 ∧
    (handle_end_chat sampleChatDB sampleU1 9).2 =
      [Out.send 200 partner_ended_text, Out.reply chat_ended_text] :=
  spec_C4_end_chat sampleChatDB sampleU1 9 1 sampleChat1 sampleU2 rfl rfl (Or.inl rfl)
    (by decide) rfl rfl (by decide) (by decide) (by decide) (by decide)

/-- C9: for any registered user record whatsoever — participant or not,
with or without a history entry — naming an existing chat with at least
one message renders the full ordered transcript; the result never depends
on the ChatHistory table, and every message by another author is labelled
as the interlocutor's. -/
theorem spec_C9_view_transcript (db : DB) (user : User) (cid : Nat) (chat : Chat)
    (hchat : findChat db cid = some chat)
    (hmsgs : db.messages.filter (fun m => m.chat_id == cid) ≠ []) :
    view_chat_history db user cid =
      [Out.reply (build_transcript user (sortByKey Message.sent_at
        (db.messages.filter (fun m => m.chat_id == cid))))] ∧
    (∀ h', view_chat_history { db with chat_history := h' } user cid =
      view_chat_history db user cid) ∧
    (∀ m ∈ sortByKey Message.sent_at (db.messages.filter (fun m => m.chat_id == cid)),
      m.user_id ≠ user.id →
      render_message user m =
        "Собеседник" ++ ": " ++ m.text ++ "\n   (" ++ toString m.sent_at ++ ")\n\n") := by
  refine ⟨?_, fun h' => rfl, ?_⟩
  · unfold view_chat_history
    simp only [hchat]
    cases hs : sortByKey Message.sent_at (db.messages.filter (fun m => m.chat_id == cid)) with
    | nil =>
      exfalso
      exact hmsgs ((sortByKey_eq_nil_iff _ _).mp hs)
    | cons m ms =>
      simp only [hs]
  · intro m hm hne
    unfold render_message
    rw [if_neg hne]

theorem spec_C9_view_transcript_witness :
    view_chat_history sampleViewDB (sampleUser 5 500 17) 1 =
      [Out.reply (build_transcript (sampleUser 5 500 17) (sortByKey Message.sent_at
        (sampleViewDB.messages.filter (fun m => m.chat_id == 1))))] :=
  (spec_C9_view_transcript sampleViewDB (sampleUser 5 500 17) 1 sampleChat1 rfl
    (by decide)).1

theorem add_to_queue_users (db : DB) (u : User) (r p : String) (t : Nat) :
    (add_to_queue db u r p t).users = db.users := by
  unfold add_to_queue
  split <;> rfl

theorem add_to_queue_chats (db : DB) (u : User) (r p : String) (t : Nat) :
    (add_to_queue db u r p t).chats = db.chats := by
  unfold add_to_queue
  split <;> rfl

theorem add_to_queue_next_chat_id (db : DB) (u : User) (r p : String) (t : Nat) :
    (add_to_queue db u r p t).next_chat_id = db.next_chat_id := by
  unfold add_to_queue
  split <;> rfl

/-- Effect of overwriting one user row (the ORM mutation of
`user.current_role`/`current_problem`) on user lookups. -/
theorem findUserById_update_row (db : DB) (i k : Nat) (new u : User)
    (hnewid : new.id = k)
    (hu : findUserById db i = some u) :
    findUserById { db with users := updAt User.id k (fun _ => new) db.users } i =
      some (if u.id = k then new else u) := by
  unfold findUserById updAt at *
  rw [find?_map_invariant _ _ (fun a => by by_cases h : a.id = k <;> simp [h, hnewid])
    db.users, hu]
  rfl

/-- Whatever `find_match` returns is a stored, non-banned, chat-free user
other than the requester. -/
theorem find_match_props (db : DB) (user : User) (role problem : String) (m : User)
    (hm : find_match db user role problem = some m) :
    findUserById db m.id = some m ∧ m.is_banned = false ∧ m.current_chat_id = none ∧
    m.id ≠ user.id := by
  unfold find_match at hm
  cases hs : sortByKey (fun qu => qu.1.joined_at)
      (matchCandidates db user (opposite_of role) problem
        (get_age_range user.age).1 (get_age_range user.age).2) with
  | nil => rw [hs] at hm; exact Option.noConfusion hm
  | cons qu t =>
    obtain ⟨q0, u0⟩ := qu
    simp only [hs] at hm
    by_cases hrec : (get_age_range u0.age).1 ≤ user.age ∧
        user.age ≤ (get_age_range u0.age).2
    · rw [if_pos hrec] at hm
      obtain rfl : u0 = m := Option.some.inj hm
      have hmem := sortByKey_head_mem _ _ _ _ hs
      obtain ⟨hq0, helig⟩ := (mem_matchCandidates db user role problem q0 u0).mp hmem
      obtain ⟨hfind, hneq, -, -, -, -, hban, hchat⟩ := helig
      have hid : u0.id = q0.user_id := by
        have := List.find?_some hfind
        simpa using this
      refine ⟨?_, hban, hchat, ?_⟩
      · rw [hid]
        exact hfind
      · rw [hid]
        exact hneq
    · rw [if_neg hrec] at hm
      exact Option.noConfusion hm

/-- C10: the menu find-partner flow admits the user to the queue and
attempts a match even though the user already has a current chat; when a
match results, the user's current-chat reference is overwritten with the
new chat's id while the old Chat row and the former partner's row —
including their active flag, ended timestamp and current-chat reference —
stay exactly as they were. -/
theorem spec_C10_menu_rematch_frame (db : DB) (user : User) (role problem : String)
    (now : Nat) (oldCid : Nat) (oldChat : Chat) (p : User)
    (_hcur : user.current_chat_id = some oldCid)
    (hself : findUserById db user.id = some user)
    (hold : findChat db oldCid = some oldChat)
    (hp : findUserById db (partner_id_of oldChat user) = some p)
    (hpne : p.id ≠ user.id)
    (hpchat : p.current_chat_id.isSome)
    (hqwf : (db.queue.filter (fun q => q.user_id == user.id)).length ≤ 1) :
    (∀ m, find_match (menu_problem_pre db user role problem now).1
        (menu_problem_pre db user role problem now).2 role problem = some m →
      (∃ u', findUserById (handle_menu_problem db user role problem now).1 user.id =
          some u' ∧ u'.current_chat_id = some db.next_chat_id) ∧
      findChat (handle_menu_problem db user role problem now).1 oldCid = some oldChat ∧
      findUserById (handle_menu_problem db user role problem now).1 p.id = some p) ∧
    (find_match (menu_problem_pre db user role problem now).1
        (menu_problem_pre db user role problem now).2 role problem = none →
      ∃ e, (handle_menu_problem db user role problem now).1.queue.filter
          (fun q => q.user_id == user.id) = [e] ∧
        e.role = role ∧ e.problem_type = problem ∧ e.joined_at = now) := by
  set user1 : User := { user with current_role := some role, current_problem := some problem } with hu1
  have huid : user1.id = user.id := by rw [hu1]
  set db1 : DB := { db with users := updAt User.id user.id (fun _ => user1) db.users } with hdb1
  set db2 : DB := add_to_queue db1 user1 role problem now with hdb2
  have hpre : menu_problem_pre db user role problem now = (db2, user1) := by
    rw [hdb2, hdb1, hu1]
    unfold menu_problem_pre
    rfl
  have husers21 : db2.users = db1.users := by
    rw [hdb2]
    exact add_to_queue_users db1 user1 role problem now
  have hchats2 : db2.chats = db.chats := by
    rw [hdb2, add_to_queue_chats, hdb1]
  have hself1 : findUserById db1 user.id = some user1 := by
    rw [hdb1]
    have := findUserById_update_row db user.id user.id user1 user huid hself
    rwa [if_pos rfl] at this
  have hself2 : findUserById db2 user.id = some user1 := by
    unfold findUserById at hself1 ⊢
    rw [husers21]
    exact hself1
  have hppid : p.id = partner_id_of oldChat user := by
    have := List.find?_some hp
    simpa using this
  have hp0 : findUserById db p.id = some p := by
    rw [hppid]
    exact hp
  have hp1 : findUserById db1 p.id = some p := by
    rw [hdb1]
    have := findUserById_update_row db p.id user.id user1 p huid hp0
    rwa [if_neg hpne] at this
  have hp2 : findUserById db2 p.id = some p := by
    unfold findUserById at hp1 ⊢
    rw [husers21]
    exact hp1
  constructor
  · intro m hm
    rw [hpre] at hm
    have hm' : find_match db2 user1 role problem = some m := hm
    obtain ⟨hmfind, hmban, hmchat, hmneq⟩ := find_match_props db2 user1 role problem m hm'
    have hmneq' : m.id ≠ user.id := by
      rw [← huid]
      exact hmneq
    have hpm : p.id ≠ m.id := by
      intro he
      rw [he] at hp2
      rw [hmfind] at hp2
      obtain rfl : m = p := Option.some.inj hp2
      rw [hmchat] at hpchat
      simp at hpchat
    set chatNew : Chat := { id := db2.next_chat_id, user1_id := user1.id, user2_id := m.id, role1 := role, role2 := opposite_of role, problem_type := problem, created_at := now, is_active := true, ended_at := none } with hchatNew
    set dbc : DB := { db2 with chats := db2.chats ++ [chatNew], next_chat_id := db2.next_chat_id + 1 } with hdbc
    set dbd : DB := setCurrentChat dbc user1.id (some chatNew.id) with hdbd
    set dbe : DB := setCurrentChat dbd m.id (some chatNew.id) with hdbe
    have hcreate : create_chat db2 user1 m role problem now = (dbe, chatNew) := by
      rw [hdbe, hdbd, hdbc, hchatNew]
      unfold create_chat
      rfl
    have hres : handle_menu_problem db user role problem now =
        (remove_from_queue (remove_from_queue dbe user1.id) m.id,
         [Out.reply searching_text,
          Out.send user1.telegram_id (match_found_text m.age user1.age),
          Out.send m.telegram_id (match_found_text user1.age m.age)]) := by
      unfold handle_menu_problem
      simp only [hpre]
      simp only [hm']
      simp only [hcreate]
    have hcid : chatNew.id = db.next_chat_id := by
      rw [hchatNew]
      show db2.next_chat_id = db.next_chat_id
      rw [hdb2, add_to_queue_next_chat_id, hdb1]
    have hselfc : findUserById dbc user.id = some user1 := hself2
    have hselfd : findUserById dbd user.id =
        some { user1 with current_chat_id := some chatNew.id } := by
      rw [hdbd]
      have := findUserById_setCurrentChat dbc user.id user1.id (some chatNew.id) user1 hselfc
      rwa [if_pos rfl] at this
    have hselfe : findUserById dbe user.id =
        some { user1 with current_chat_id := some chatNew.id } := by
      rw [hdbe]
      have := findUserById_setCurrentChat dbd user.id m.id (some chatNew.id) _ hselfd
      rwa [if_neg (by simpa using Ne.symm hmneq')] at this
    have hchatc : findChat dbc oldCid = some oldChat := by
      rw [hdbc]
      unfold findChat
      dsimp only
      rw [List.find?_append]
      have : db2.chats.find? (fun c => c.id == oldCid) = some oldChat := by
        have h2 : findChat db2 oldCid = some oldChat := by
          unfold findChat
          rw [hchats2]
          exact hold
        exact h2
      rw [this]
      rfl
    have hpc : findUserById dbc p.id = some p := hp2
    have hpd : findUserById dbd p.id = some p := by
      rw [hdbd]
      have := findUserById_setCurrentChat dbc p.id user1.id (some chatNew.id) p hpc
      rwa [if_neg (by rw [huid]; exact hpne)] at this
    have hpe : findUserById dbe p.id = some p := by
      rw [hdbe]
      have := findUserById_setCurrentChat dbd p.id m.id (some chatNew.id) p hpd
      rwa [if_neg hpm] at this
    rw [hres]
    refine ⟨⟨{ user1 with current_chat_id := some chatNew.id }, hselfe, by rw [hcid]⟩,
      hchatc, hpe⟩
  · intro hnone
    rw [hpre] at hnone
    have hnone' : find_match db2 user1 role problem = none := hnone
    have hres : handle_menu_problem db user role problem now =
        (db2, [Out.reply searching_text, Out.send user1.telegram_id queued_text]) := by
      unfold handle_menu_problem
      simp only [hpre]
      simp only [hnone']
    obtain ⟨e, he, -, hrole, hprob, -, hjoin⟩ :=
      add_to_queue_filter_self db1 user1 role problem now hqwf
    rw [hres]
    exact ⟨e, he, hrole, hprob, hjoin⟩

theorem spec_C10_menu_rematch_frame_witness :
    (∃ u', findUserById (handle_menu_problem sampleMenuDB sampleU1 "support" "study" 9).1 1 =
        some u' ∧ u'.current_chat_id = some 2) ∧
    findChat (handle_menu_problem sampleMenuDB sampleU1 "support" "study" 9).1 1 =
      some sampleChat1 ∧
    findUserById (handle_menu_problem sampleMenuDB sampleU1 "support" "study" 9).1 2 =
      some sampleU2 :=
  (spec_C10_menu_rematch_frame sampleMenuDB sampleU1 "support" "study" 9 1 sampleChat1
    sampleU2 rfl rfl rfl rfl (by decide) (by decide) (by decide)).1
    (sampleUser 6 600 16) (by decide)

/-- Pointing a user at a chat can never make a stale user fresh. -/
theorem staleUser_setCurrentChat_some (db : DB) (k cidv u : Nat)
    (hst : staleUser db u = true) :
    staleUser (setCurrentChat db k (some cidv)) u = true := by
  unfold staleUser setCurrentChat findUserById updAt at *
  rw [find?_map_invariant _ _ (fun a => by by_cases h : a.id = k <;> simp [h]) db.users]
  cases hf : db.users.find? (fun a => a.id == u) with
  | none =>
    simp
  | some x =>
    rw [hf] at hst
    simp only [Option.map_some']
    by_cases h : x.id = k
    · simp only [if_pos h]
      simp only at hst
      rcases Bool.or_eq_true_iff.mp hst with hb | hc
      · simp [hb]
      · simp
    · simp only [if_neg h]
      exact hst

/-- One sweep iteration never makes a stale user fresh. -/
theorem sweepStep_stale_mono (now : Nat) (s : SweepState) (e : QueueEntry) (u : Nat)
    (hst : staleUser s.db u = true) : staleUser (sweepStep now s e).db u = true := by
  unfold sweepStep
  split
  · exact hst
  · split
    · exact hst
    · split
      · exact hst
      · split
        · exact hst
        · split
          · exact hst
          · split
            · exact staleUser_setCurrentChat_some _ _ _ _
                (staleUser_setCurrentChat_some _ _ _ _ hst)
            · exact hst

/-- One sweep iteration never records a stale user as processed. -/
theorem sweepStep_proc_mono (now : Nat) (s : SweepState) (e : QueueEntry) (u : Nat)
    (hst : staleUser s.db u = true) (hproc : u ∉ s.processed) :
    u ∉ (sweepStep now s e).processed := by
  unfold sweepStep
  split
  · exact hproc
  · split
    · exact hproc
    · rename_i user hfu
      split
      · exact hproc
      · rename_i hcond
        have huid : user.id = e.user_id := by
          have := List.find?_some hfu
          simpa using this
        have hustale : staleUser s.db user.id = false := by
          unfold staleUser
          rw [huid, hfu]
          simpa using hcond
        have hne_user : u ≠ user.id := by
          intro heq
          rw [heq, hustale] at hst
          exact Bool.noConfusion hst
        split
        · simp only [List.mem_append, List.mem_singleton]
          rintro (h | h)
          · exact hproc h
          · exact hne_user h
        · rename_i m hm
          have hprops := find_match_props s.db user e.role e.problem_type m hm
          split
          · simp only [List.mem_append, List.mem_singleton]
            rintro (h | h)
            · exact hproc h
            · exact hne_user h
          · rename_i mu hmu
            have hmum : mu = m := by
              rw [hprops.1] at hmu
              exact (Option.some.inj hmu).symm
            have hmstale : staleUser s.db mu.id = false := by
              rw [hmum]
              unfold staleUser
              rw [hprops.1]
              simp [hprops.2.1, hprops.2.2.1]
            have hne_mu : u ≠ mu.id := by
              intro heq
              rw [heq, hmstale] at hst
              exact Bool.noConfusion hst
            split
            · simp only [List.mem_append, List.mem_singleton]
              rintro ((h | h) | h)
              · exact hproc h
              · exact hne_mu h
              · exact hne_user h
            · simp only [List.mem_append, List.mem_singleton]
              rintro (h | h)
              · exact hproc h
              · exact hne_user h

theorem not_mem_map_filter {α β : Type} (f : α → β) (q : α → Bool) (l : List α) (u : β)
    (h : u ∉ l.map f) : u ∉ (l.filter q).map f := by
  intro hmem
  obtain ⟨x, hx, rfl⟩ := List.mem_map.mp hmem
  exact h (List.mem_map_of_mem f (List.mem_filter.mp hx).1)

/-- One sweep iteration never enqueues anybody. -/
theorem sweepStep_queue_mono (now : Nat) (s : SweepState) (e : QueueEntry) (u : Nat)
    (h : u ∉ s.db.queue.map QueueEntry.user_id) :
    u ∉ (sweepStep now s e).db.queue.map QueueEntry.user_id := by
  unfold sweepStep
  split
  · exact h
  · split
    · exact not_mem_map_filter _ _ _ _ h
    · split
      · exact not_mem_map_filter _ _ _ _ h
      · split
        · exact h
        · split
          · exact h
          · split
            · exact not_mem_map_filter _ _ _ _ (not_mem_map_filter _ _ _ _ h)
            · exact h

/-- A stale entry reached while unprocessed is removed and nothing else
happens: no match attempt, no chat creation, no notification. -/
theorem sweepStep_stale (now : Nat) (s : SweepState) (e : QueueEntry)
    (hproc : e.user_id ∉ s.processed)
    (hst : staleUser s.db e.user_id = true) :
    sweepStep now s e = { s with db := remove_from_queue s.db e.user_id } := by
  unfold sweepStep
  rw [if_neg hproc]
  unfold staleUser at hst
  cases hf : findUserById s.db e.user_id with
  | none => simp only [hf]
  | some u =>
    rw [hf] at hst
    simp only [hf]
    rw [if_pos hst]

/-- Once a user is stale and unprocessed, folding the sweep over any
remaining entries (one of which is theirs, unless they are already gone)
leaves them out of the queue. -/
theorem sweep_go_removes (now : Nat) (l : List QueueEntry) : ∀ (s : SweepState) (u : Nat),
    staleUser s.db u = true → u ∉ s.processed →
    ((∃ e ∈ l, e.user_id = u) ∨ u ∉ s.db.queue.map QueueEntry.user_id) →
    u ∉ (l.foldl (sweepStep now) s).db.queue.map QueueEntry.user_id := by
  induction l with
  | nil =>
    intro s u hst hproc hcase
    rcases hcase with ⟨e, he, -⟩ | hout
    · simp at he
    · simpa using hout
  | cons e t ih =>
    intro s u hst hproc hcase
    rw [List.foldl_cons]
    apply ih (sweepStep now s e) u (sweepStep_stale_mono now s e u hst)
      (sweepStep_proc_mono now s e u hst hproc)
    rcases hcase with ⟨e', he', heq⟩ | hout
    · rcases List.mem_cons.mp he' with rfl | het
      · right
        rw [sweepStep_stale now s e' (by rw [heq]; exact hproc) (by rw [heq]; exact hst)]
        intro hmem
        obtain ⟨x, hx, hxu⟩ := List.mem_map.mp hmem
        have hxne := (List.mem_filter.mp hx).2
        rw [heq] at hxne
        rw [hxu] at hxne
        simp at hxne
      · left
        exact ⟨e', het, heq⟩
    · right
      exact sweepStep_queue_mono now s e u hout

/-- C8: a sweep over an empty queue changes nothing and sends nothing;
any entry whose user is missing, banned, or already in a chat is removed
by the iteration that reaches it, with no match attempted; and a user
stale at sweep start is out of the queue when the sweep finishes. -/
theorem spec_C8_sweep (db : DB) (now : Nat) :
    (db.queue = [] → periodic_matchmaking_task db now = ⟨db, [], []⟩) ∧
    (∀ (s : SweepState) (e : QueueEntry), e.user_id ∉ s.processed →
      staleUser s.db e.user_id = true →
      sweepStep now s e = { s with db := remove_from_queue s.db e.user_id }) ∧
    (∀ e ∈ db.queue, staleUser db e.user_id = true →
      e.user_id ∉ ((periodic_matchmaking_task db now).db.queue.map QueueEntry.user_id)) := by
  refine ⟨?_, fun s e hproc hst => sweepStep_stale now s e hproc hst, ?_⟩
  · intro hq
    unfold periodic_matchmaking_task
    rw [hq]
    rfl
  · intro e he hst
    unfold periodic_matchmaking_task
    exact sweep_go_removes now db.queue ⟨db, [], []⟩ e.user_id hst (by simp)
      (Or.inl ⟨e, he, rfl⟩)

theorem spec_C8_sweep_witness :
    (7 : Nat) ∉ ((periodic_matchmaking_task sampleStaleDB 5).db.queue.map
      QueueEntry.user_id) :=
  (spec_C8_sweep sampleStaleDB 5).2.2 sampleStaleEntry (by decide) (by decide)

end Zabota
